import Mathlib

/-!
Shallow embedding of the chunk-based storage decoder of `max_dump`
(`src/max_dump/storage_parser.py` and `src/max_dump/utils.py`).

Bytes are modelled as `List Nat` (each entry a byte value), the in-memory
`io.BytesIO` cursor as a `ByteStream` (data plus position).  Fixed-width
signed reads mirror `struct.unpack` on little-endian data; `struct.error`
(raised by `unpack` on a short read) and the `assert` on a zero extended
length are modelled as values of `ParseError`.  The recursive sibling loop
`_read_nodes` is embedded with an explicit fuel parameter; termination of
the Python loop corresponds to the fuel never running out, which is proved
below for the fuel chosen by `read_nodes`.
-/

/-- `calcsize('h')`: size in bytes of a short. -/
def SHORT_S : Nat := 2

/-- `calcsize('i')`: size in bytes of an int. -/
def INT_S : Nat := 4

/-- `calcsize('q')`: size in bytes of a long long. -/
def LONG_LONG_S : Nat := 8

/-- The in-memory byte cursor: the buffer and the current position
(`io.BytesIO` restricted to the operations the decoder uses). -/
structure ByteStream where
  data : List Nat
  pos : Nat
  deriving DecidableEq, Repr

/-- Failure modes of the embedded decoder.

`structError` models `struct.error`, raised by `unpack` when `stream.read`
returned fewer bytes than the requested width (end of stream).
`assertExtZero` models the `AssertionError` from
`assert chunk_length != 0, "Extended length cannot be zero"`.
`outOfFuel` is an artefact of the fuel-based embedding of the `while`
loop; it is proved unreachable for the fuel used by `read_nodes`. -/
inductive ParseError where
  | structError
  | assertExtZero
  | outOfFuel
  deriving DecidableEq, Repr

/-- `StorageType` enum: type of a storage. -/
inductive StorageType where
  | CONTAINER
  | VALUE
  deriving DecidableEq, Repr

/-- `StorageHeader`: identifier, length of the value only (no header),
storage type, extended flag. -/
structure StorageHeader where
  idn : Int
  length : Int
  storage_type : StorageType
  extended : Bool
  deriving DecidableEq, Repr

/-- Decoded nodes: `StorageValue` (header plus raw payload bytes) and
`StorageContainer` (header plus ordered children).  The display-only
`_nest` counter is not part of the data model. -/
inductive Storage where
  | value (header : StorageHeader) (value : List Nat)
  | container (header : StorageHeader) (childs : List Storage)

/-- `io.BytesIO.read(size)`: a negative size reads to the end of the
buffer; otherwise at most `size` bytes are returned; the position
advances by the number of bytes actually returned. -/
def bytesRead (s : ByteStream) (size : Int) : List Nat × ByteStream :=
  let remaining := s.data.drop s.pos
  if size < 0 then
    (remaining, { s with pos := s.pos + remaining.length })
  else
    let chunk := remaining.take size.toNat
    (chunk, { s with pos := s.pos + chunk.length })

/-- Little-endian byte list to unsigned value. -/
def bytesToNat : List Nat → Nat
  | [] => 0
  | b :: bs => b + 256 * bytesToNat bs

/-- Two's-complement reinterpretation of a `w`-byte unsigned value as a
signed integer, as `struct.unpack` does for the signed format codes. -/
def toSigned (w : Nat) (n : Nat) : Int :=
  if n < 2 ^ (8 * w - 1) then (n : Int) else (n : Int) - 2 ^ (8 * w)

/-- `unpack(fmt, stream.read(w))[0]` for a signed `w`-byte format code:
`struct.error` when fewer than `w` bytes could be read. -/
def readUnpack (w : Nat) (s : ByteStream) : Except ParseError (Int × ByteStream) :=
  let r := bytesRead s (w : Int)
  if r.1.length = w then
    Except.ok (toSigned w (bytesToNat r.1), r.2)
  else
    Except.error ParseError.structError

/-- `utils.read_short`. -/
def read_short (s : ByteStream) : Except ParseError (Int × ByteStream) :=
  readUnpack SHORT_S s

/-- `utils.read_int`. -/
def read_int (s : ByteStream) : Except ParseError (Int × ByteStream) :=
  readUnpack INT_S s

/-- `utils.read_long_long`. -/
def read_long_long (s : ByteStream) : Except ParseError (Int × ByteStream) :=
  readUnpack LONG_LONG_S s

/-- `utils.unset_sign_bit(number, length)`: Python's arbitrary-precision
bitwise operations are `Int.land`, `Int.not` and `<<<` on `ℤ`. -/
def unset_sign_bit (number : Int) (length : Nat) : Int :=
  let number_of_bits : Int := (length : Int) * 8
  let sign_bit : Int := (1 : Int) <<< (number_of_bits - 1)
  let byte_mask : Int := ((1 : Int) <<< number_of_bits) - 1
  Int.land number (Int.land (~~~ sign_bit) byte_mask)

/-- The extended-header escape inside `_read_header`: on a zero 32-bit
length, re-read the length as a signed 64-bit integer; the `assert` on a
second zero is the `assertExtZero` error.  Returns
`(size_of_length, chunk_length, extended, stream)`. -/
def read_header_length (cl : Int) (s2 : ByteStream) :
    Except ParseError (Nat × Int × Bool × ByteStream) :=
  if cl = 0 then
    -- It is an extended header and needs extra 64 bits.
    match read_long_long s2 with
    | Except.error e => Except.error e
    | Except.ok (cl2, s3) =>
      if cl2 = 0 then
        Except.error ParseError.assertExtZero
      else
        Except.ok (LONG_LONG_S, cl2, true, s3)
  else
    Except.ok (INT_S, cl, false, s2)

/-- `StorageParser._read_header`. -/
def read_header (s : ByteStream) : Except ParseError (StorageHeader × ByteStream) :=
  match read_short s with
  | Except.error e => Except.error e
  | Except.ok (idn, s1) =>
    match read_int s1 with
    | Except.error e => Except.error e
    | Except.ok (cl, s2) =>
      match read_header_length cl s2 with
      | Except.error e => Except.error e
      | Except.ok (size_of_length, chunk_length, extended, s3) =>
        -- if sign bit is set (length is negative), the chunk is a container
        let p :=
          if chunk_length < 0 then
            (StorageType.CONTAINER, unset_sign_bit chunk_length size_of_length)
          else
            (StorageType.VALUE, chunk_length)
        let header_length : Int :=
          (SHORT_S : Int) + (INT_S : Int) +
            (if extended then (LONG_LONG_S : Int) else 0)
        -- We need only the length of the value
        Except.ok ({ idn := idn, length := p.2 - header_length,
                     storage_type := p.1, extended := extended }, s3)

/-- `StorageParser._read_value`. -/
def read_value (length : Int) (s : ByteStream) : List Nat × ByteStream :=
  bytesRead s length

/-- The `while consumed < length` sibling loop of
`StorageParser._read_nodes`, with explicit fuel.  `start` is the cursor
position recorded on entry, so `consumed = s.pos - start`.  A container
child recurses with the child budget `header.length`, then the loop
continues on the advanced stream. -/
def read_loop : Nat → Int → Nat → List Storage → ByteStream →
    Except ParseError (List Storage × ByteStream)
  | 0, _, _, _, _ => Except.error ParseError.outOfFuel
  | fuel + 1, length, start, items, s =>
    if ((s.pos : Int) - (start : Int)) < length then
      match read_header s with
      | Except.error e => Except.error e
      | Except.ok (header, s1) =>
        match header.storage_type with
        | StorageType.CONTAINER =>
          match read_loop fuel header.length s1.pos [] s1 with
          | Except.error e => Except.error e
          | Except.ok (childs, s2) =>
            read_loop fuel length start
              (items ++ [Storage.container header childs]) s2
        | StorageType.VALUE =>
          let r := read_value header.length s1
          read_loop fuel length start
            (items ++ [Storage.value header r.1]) r.2
    else
      Except.ok (items, s)

/-- `StorageParser._read_nodes(length)`: run the sibling loop from the
current position with fuel that (provably, below) never runs out. -/
def read_nodes (length : Int) (s : ByteStream) :
    Except ParseError (List Storage × ByteStream) :=
  read_loop (s.data.length + 1 - s.pos) length s.pos [] s

/-- `StorageParser.parse`: measure the whole buffer, decode from
position 0 with the total length as budget, return the forest. -/
def parse (data : List Nat) : Except ParseError (List Storage) :=
  match read_nodes (data.length : Int) { data := data, pos := 0 } with
  | Except.ok (items, _) => Except.ok items
  | Except.error e => Except.error e

/-- Little-endian encoder, the inverse of `bytesToNat`: used to build the
byte inputs the theorems quantify over. -/
def natToBytes : Nat → Nat → List Nat
  | 0, _ => []
  | w + 1, n => n % 256 :: natToBytes w (n / 256)

theorem natToBytes_length (w n : Nat) : (natToBytes w n).length = w := by
  induction w generalizing n with
  | zero => rfl
  | succ w ih => simp [natToBytes, ih]

theorem bytesToNat_natToBytes (w n : Nat) :
    bytesToNat (natToBytes w n) = n % 2 ^ (8 * w) := by
  induction w generalizing n with
  | zero => simp [natToBytes, bytesToNat, Nat.mod_one]
  | succ w ih =>
    have h2 : 2 ^ (8 * (w + 1)) = 256 * 2 ^ (8 * w) := by ring
    rw [natToBytes, bytesToNat, ih, h2, Nat.mod_mul]

theorem bytesRead_data (s : ByteStream) (n : Int) :
    (bytesRead s n).2.data = s.data := by
  by_cases h : n < 0 <;> simp [bytesRead, h]

theorem bytesRead_pos_ge (s : ByteStream) (n : Int) :
    s.pos ≤ (bytesRead s n).2.pos := by
  by_cases h : n < 0 <;> simp [bytesRead, h]

theorem bytesRead_pos_le (s : ByteStream) (n : Int)
    (h : s.pos ≤ s.data.length) : (bytesRead s n).2.pos ≤ s.data.length := by
  by_cases hn : n < 0 <;> simp [bytesRead, hn] <;> omega

theorem readUnpack_ok {w : Nat} {s : ByteStream} {v : Int} {s' : ByteStream}
    (hw : 0 < w) (h : readUnpack w s = Except.ok (v, s')) :
    s'.data = s.data ∧ s'.pos = s.pos + w ∧ s.pos + w ≤ s.data.length ∧
      v = toSigned w (bytesToNat ((s.data.drop s.pos).take w)) := by
  have hnn : ¬ ((w : Int) < 0) := by omega
  simp only [readUnpack, bytesRead, hnn, if_false, Int.toNat_natCast,
    List.length_take, List.length_drop] at h
  by_cases hlen : min w (s.data.length - s.pos) = w
  · rw [if_pos hlen] at h
    cases h
    refine ⟨rfl, ?_, ?_, rfl⟩ <;> dsimp only <;> omega
  · rw [if_neg hlen] at h
    cases h

theorem readUnpack_eval (w : Nat) (s : ByteStream)
    (h : s.pos + w ≤ s.data.length) :
    readUnpack w s =
      Except.ok (toSigned w (bytesToNat ((s.data.drop s.pos).take w)),
        { s with pos := s.pos + w }) := by
  have hnn : ¬ ((w : Int) < 0) := by omega
  have hlen : min w (s.data.length - s.pos) = w := by omega
  simp only [readUnpack, bytesRead, hnn, if_false, Int.toNat_natCast,
    List.length_take, List.length_drop, hlen, if_pos rfl, if_true]


theorem toSigned_of_lt {w n : Nat} (h : n < 2 ^ (8 * w - 1)) :
    toSigned w n = (n : Int) := by
  simp [toSigned, h]

theorem toSigned_of_ge {w n : Nat} (h : 2 ^ (8 * w - 1) ≤ n) :
    toSigned w n = (n : Int) - 2 ^ (8 * w) := by
  simp [toSigned, Nat.not_lt.mpr h]

theorem readUnpack_prefix_eval {w : Nat} (hw : 0 < w) (s : ByteStream)
    {pre rest : List Nat} (hd : s.data.drop s.pos = pre ++ rest)
    (hl : pre.length = w) :
    readUnpack w s =
      Except.ok (toSigned w (bytesToNat pre), { s with pos := s.pos + w }) := by
  have hlen : s.data.length - s.pos = w + rest.length := by
    have h := congrArg List.length hd
    simp only [List.length_drop, List.length_append, hl] at h
    omega
  have hle : s.pos + w ≤ s.data.length := by omega
  have h1 := readUnpack_eval w s hle
  rw [hd, List.take_left' hl] at h1
  exact h1

theorem read_header_length_nonzero (cl : Int) (s2 : ByteStream) (h : ¬ cl = 0) :
    read_header_length cl s2 = Except.ok (INT_S, cl, false, s2) := by
  simp [read_header_length, h]

theorem read_short_int_eval (s : ByteStream) (b0 b1 n : Nat) (rest : List Nat)
    (hd : s.data.drop s.pos = b0 :: b1 :: (natToBytes 4 n ++ rest))
    (hlt : n < 2 ^ 32) :
    read_short s =
        Except.ok (toSigned 2 (b0 + 256 * b1), { s with pos := s.pos + 2 }) ∧
      read_int { s with pos := s.pos + 2 } =
        Except.ok (toSigned 4 n, { s with pos := s.pos + 2 + 4 }) := by
  constructor
  · have h1 := @readUnpack_prefix_eval 2 (by norm_num) s [b0, b1]
      (natToBytes 4 n ++ rest) (by simpa using hd) rfl
    rw [read_short]
    show readUnpack 2 s = _
    rw [h1]
    norm_num [bytesToNat]
  · have hdrop : ({ s with pos := s.pos + 2 } : ByteStream).data.drop
        ({ s with pos := s.pos + 2 } : ByteStream).pos = natToBytes 4 n ++ rest := by
      show s.data.drop (s.pos + 2) = _
      rw [← List.drop_drop, hd]
      simp
    have h2 := @readUnpack_prefix_eval 4 (by norm_num)
      ({ s with pos := s.pos + 2 }) _ _ hdrop (natToBytes_length 4 n)
    rw [read_int]
    show readUnpack 4 _ = _
    rw [h2, bytesToNat_natToBytes]
    have : n % 2 ^ (8 * 4) = n := Nat.mod_eq_of_lt (by norm_num; omega)
    rw [this]

theorem read_header_value_eval (s : ByteStream) (b0 b1 n : Nat) (rest : List Nat)
    (hd : s.data.drop s.pos = b0 :: b1 :: (natToBytes 4 n ++ rest))
    (hpos : 0 < n) (hlt : n < 2 ^ 31) :
    read_header s =
      Except.ok ({ idn := toSigned 2 (b0 + 256 * b1), length := (n : Int) - 6,
                   storage_type := StorageType.VALUE, extended := false },
        { s with pos := s.pos + 6 }) := by
  obtain ⟨hs, hi⟩ := read_short_int_eval s b0 b1 n rest hd (by omega)
  have hsig : toSigned 4 n = (n : Int) := toSigned_of_lt (by norm_num; omega)
  have hne : ¬ (toSigned 4 n = 0) := by rw [hsig]; omega
  have hneg : ¬ (toSigned 4 n < 0) := by rw [hsig]; omega
  unfold read_header
  rw [hs]
  dsimp only
  rw [hi]
  dsimp only
  rw [read_header_length_nonzero _ _ hne]
  dsimp only
  rw [if_neg hneg, hsig]
  simp only [SHORT_S, INT_S]
  norm_num

theorem int_not_ofNat (n : Nat) : ~~~ (n : Int) = Int.negSucc n := rfl

theorem int_land_negSucc_ofNat (m n : Nat) :
    Int.land (Int.negSucc m) (n : Int) = ((Nat.ldiff n m : Nat) : Int) := rfl

theorem ldiff_mask (j k : Nat) (h : j + 1 = k) :
    Nat.ldiff (2 ^ k - 1) (2 ^ j) = 2 ^ j - 1 := by
  apply Nat.eq_of_testBit_eq
  intro i
  rw [Nat.testBit_ldiff, Nat.testBit_two_pow_sub_one, Nat.testBit_two_pow,
    Nat.testBit_two_pow_sub_one]
  subst h
  by_cases h1 : i < j <;> by_cases h2 : i < j + 1 <;> by_cases h3 : j = i <;>
    simp [h1, h2, h3] <;> omega

theorem unset_sign_bit_mask (number : Int) (w : Nat) (hw : 0 < w) :
    unset_sign_bit number w = Int.land number ((2 ^ (8 * w - 1) - 1 : Nat) : Int) := by
  have e1 : ((w : Nat) : Int) * 8 - 1 = ((8 * w - 1 : Nat) : Int) := by
    push_cast [Nat.cast_sub (by omega : 1 ≤ 8 * w)]
    ring
  have e2 : ((w : Nat) : Int) * 8 = ((8 * w : Nat) : Int) := by push_cast; ring
  have h1 : (1 : Int) <<< (((w : Nat) : Int) * 8 - 1) = ((2 ^ (8 * w - 1) : Nat) : Int) := by
    rw [e1, Int.shiftLeft_eq_mul_pow]
    push_cast
    ring
  have h2 : ((1 : Int) <<< (((w : Nat) : Int) * 8)) - 1 = ((2 ^ (8 * w) - 1 : Nat) : Int) := by
    rw [e2, Int.shiftLeft_eq_mul_pow]
    push_cast [Nat.cast_sub (Nat.one_le_two_pow)]
    ring
  simp only [unset_sign_bit]
  rw [h1, h2, int_not_ofNat, int_land_negSucc_ofNat,
    ldiff_mask (8 * w - 1) (8 * w) (by omega)]

theorem unset_sign_bit_four (number : Int) :
    unset_sign_bit number 4 = Int.land number (2 ^ 31 - 1) := by
  rw [unset_sign_bit_mask number 4 (by norm_num)]
  norm_num

theorem unset_sign_bit_eight (number : Int) :
    unset_sign_bit number 8 = Int.land number (2 ^ 63 - 1) := by
  rw [unset_sign_bit_mask number 8 (by norm_num)]
  norm_num

theorem read_header_cont32_eval (s : ByteStream) (b0 b1 n : Nat) (rest : List Nat)
    (hd : s.data.drop s.pos = b0 :: b1 :: (natToBytes 4 n ++ rest))
    (hge : 2 ^ 31 ≤ n) (hlt : n < 2 ^ 32) :
    read_header s =
      Except.ok ({ idn := toSigned 2 (b0 + 256 * b1),
                   length := Int.land (toSigned 4 n) (2 ^ 31 - 1) - 6,
                   storage_type := StorageType.CONTAINER, extended := false },
        { s with pos := s.pos + 6 }) := by
  obtain ⟨hs, hi⟩ := read_short_int_eval s b0 b1 n rest hd hlt
  have hsig : toSigned 4 n = (n : Int) - 2 ^ 32 := toSigned_of_ge (by norm_num; omega)
  have hne : ¬ (toSigned 4 n = 0) := by rw [hsig]; omega
  have hneg : toSigned 4 n < 0 := by rw [hsig]; omega
  unfold read_header
  rw [hs]
  dsimp only
  rw [hi]
  dsimp only
  rw [read_header_length_nonzero _ _ hne]
  dsimp only
  rw [if_pos hneg]
  rw [show INT_S = 4 from rfl, unset_sign_bit_four]
  simp only [SHORT_S, INT_S]
  norm_num

theorem read_header_length_ext (s2 : ByteStream) (v : Int) (s3 : ByteStream)
    (h : read_long_long s2 = Except.ok (v, s3)) (hv : ¬ v = 0) :
    read_header_length 0 s2 = Except.ok (LONG_LONG_S, v, true, s3) := by
  simp [read_header_length, h, hv]

theorem read_header_length_extz (s2 : ByteStream) (s3 : ByteStream)
    (h : read_long_long s2 = Except.ok (0, s3)) :
    read_header_length 0 s2 = Except.error ParseError.assertExtZero := by
  simp [read_header_length, h]

theorem read_long_long_eval (s : ByteStream) (m : Nat) (rest : List Nat)
    (hd : s.data.drop s.pos = natToBytes 8 m ++ rest) (hlt : m < 2 ^ 64) :
    read_long_long s = Except.ok (toSigned 8 m, { s with pos := s.pos + 8 }) := by
  have h1 := @readUnpack_prefix_eval 8 (by norm_num) s _ _ hd (natToBytes_length 8 m)
  rw [read_long_long]
  show readUnpack 8 _ = _
  rw [h1, bytesToNat_natToBytes]
  have : m % 2 ^ (8 * 8) = m := Nat.mod_eq_of_lt (by norm_num; omega)
  rw [this]

theorem read_header_ext_eval (s : ByteStream) (b0 b1 m : Nat) (rest : List Nat)
    (hd : s.data.drop s.pos = b0 :: b1 :: (natToBytes 4 0 ++ (natToBytes 8 m ++ rest)))
    (hge : 2 ^ 63 ≤ m) (hlt : m < 2 ^ 64) :
    read_header s =
      Except.ok ({ idn := toSigned 2 (b0 + 256 * b1),
                   length := Int.land (toSigned 8 m) (2 ^ 63 - 1) - 14,
                   storage_type := StorageType.CONTAINER, extended := true },
        { s with pos := s.pos + 14 }) := by
  obtain ⟨hs, hi⟩ := read_short_int_eval s b0 b1 0 (natToBytes 8 m ++ rest) hd
    (by norm_num)
  have h40 : toSigned 4 0 = 0 := by simp [toSigned]
  have hA : s.data.drop (s.pos + 2) = natToBytes 4 0 ++ (natToBytes 8 m ++ rest) := by
    rw [← List.drop_drop, hd]
    simp
  have hdrop8 : s.data.drop (s.pos + 2 + 4) = natToBytes 8 m ++ rest := by
    rw [← List.drop_drop, hA, List.drop_left' (natToBytes_length 4 0)]
  have hll : read_long_long ({ s with pos := s.pos + 2 + 4 } : ByteStream) =
      Except.ok (toSigned 8 m, { s with pos := s.pos + 2 + 4 + 8 }) :=
    read_long_long_eval { s with pos := s.pos + 2 + 4 } m rest hdrop8 hlt
  have hsig : toSigned 8 m = (m : Int) - 2 ^ 64 := toSigned_of_ge (by norm_num; omega)
  have hne : ¬ (toSigned 8 m = 0) := by rw [hsig]; omega
  have hneg : toSigned 8 m < 0 := by rw [hsig]; omega
  have hpos14 : s.pos + 2 + 4 + 8 = s.pos + 14 := by omega
  unfold read_header
  rw [hs]
  dsimp only
  rw [hi]
  dsimp only
  rw [h40, read_header_length_ext _ _ _ hll hne]
  dsimp only
  rw [if_pos hneg]
  rw [show LONG_LONG_S = 8 from rfl, unset_sign_bit_eight, hpos14]
  simp only [SHORT_S, INT_S]
  norm_num

theorem read_header_extzero_eval (s : ByteStream) (b0 b1 : Nat) (rest : List Nat)
    (hd : s.data.drop s.pos = b0 :: b1 :: (natToBytes 4 0 ++ (natToBytes 8 0 ++ rest))) :
    read_header s = Except.error ParseError.assertExtZero := by
  obtain ⟨hs, hi⟩ := read_short_int_eval s b0 b1 0 (natToBytes 8 0 ++ rest) hd
    (by norm_num)
  have h40 : toSigned 4 0 = 0 := by simp [toSigned]
  have h80 : toSigned 8 0 = 0 := by simp [toSigned]
  have hA : s.data.drop (s.pos + 2) = natToBytes 4 0 ++ (natToBytes 8 0 ++ rest) := by
    rw [← List.drop_drop, hd]
    simp
  have hdrop8 : s.data.drop (s.pos + 2 + 4) = natToBytes 8 0 ++ rest := by
    rw [← List.drop_drop, hA, List.drop_left' (natToBytes_length 4 0)]
  have hll : read_long_long ({ s with pos := s.pos + 2 + 4 } : ByteStream) =
      Except.ok (0, { s with pos := s.pos + 2 + 4 + 8 }) := by
    have := read_long_long_eval { s with pos := s.pos + 2 + 4 } 0 rest hdrop8
      (by norm_num)
    rw [this, h80]
  unfold read_header
  rw [hs]
  dsimp only
  rw [hi]
  dsimp only
  rw [h40, read_header_length_extz _ _ hll]

theorem readUnpack_err {w : Nat} {s : ByteStream} {e : ParseError}
    (h : readUnpack w s = Except.error e) : e = ParseError.structError := by
  simp only [readUnpack] at h
  split at h
  · cases h
  · cases h
    rfl

theorem read_header_length_ok {cl : Int} {s2 : ByteStream} {sol : Nat} {chl : Int}
    {ext : Bool} {s3 : ByteStream}
    (h : read_header_length cl s2 = Except.ok (sol, chl, ext, s3)) :
    s3 = s2 ∨ (s3.data = s2.data ∧ s3.pos = s2.pos + 8 ∧ s2.pos + 8 ≤ s2.data.length) := by
  unfold read_header_length at h
  by_cases hz : cl = 0
  · rw [if_pos hz] at h
    cases hll : read_long_long s2 with
    | error e => rw [hll] at h; cases h
    | ok p =>
      obtain ⟨cl2, s3'⟩ := p
      rw [hll] at h
      dsimp only at h
      by_cases hz2 : cl2 = 0
      · rw [if_pos hz2] at h
        cases h
      · rw [if_neg hz2] at h
        cases h
        right
        have hll' : readUnpack 8 s2 = Except.ok (chl, s3) := hll
        obtain ⟨h1, h2, h3, _⟩ := readUnpack_ok (by norm_num) hll'
        exact ⟨h1, h2, h3⟩
  · rw [if_neg hz] at h
    cases h
    exact Or.inl rfl

theorem read_header_length_err {cl : Int} {s2 : ByteStream} {e : ParseError}
    (h : read_header_length cl s2 = Except.error e) :
    e = ParseError.structError ∨ e = ParseError.assertExtZero := by
  unfold read_header_length at h
  by_cases hz : cl = 0
  · rw [if_pos hz] at h
    cases hll : read_long_long s2 with
    | error e2 =>
      rw [hll] at h
      cases h
      exact Or.inl (readUnpack_err hll)
    | ok p =>
      obtain ⟨cl2, s3'⟩ := p
      rw [hll] at h
      dsimp only at h
      by_cases hz2 : cl2 = 0
      · rw [if_pos hz2] at h
        cases h
        exact Or.inr rfl
      · rw [if_neg hz2] at h
        cases h
  · rw [if_neg hz] at h
    cases h

theorem read_header_cases (s : ByteStream) :
    (∃ h s', read_header s = Except.ok (h, s') ∧ s'.data = s.data ∧
      s.pos + 6 ≤ s'.pos ∧ s'.pos ≤ s.data.length) ∨
    read_header s = Except.error ParseError.structError ∨
    read_header s = Except.error ParseError.assertExtZero := by
  cases hs : read_short s with
  | error e =>
    have he := @readUnpack_err SHORT_S s _ hs
    subst he
    refine Or.inr (Or.inl ?_)
    unfold read_header
    rw [hs]
  | ok p =>
    obtain ⟨idn, s1⟩ := p
    have hs' : readUnpack 2 s = Except.ok (idn, s1) := hs
    obtain ⟨hd1, hp1, hb1, _⟩ := readUnpack_ok (by norm_num) hs'
    cases hi : read_int s1 with
    | error e =>
      have he := @readUnpack_err INT_S s1 _ hi
      subst he
      refine Or.inr (Or.inl ?_)
      unfold read_header
      rw [hs]
      dsimp only
      rw [hi]
    | ok q =>
      obtain ⟨cl, s2⟩ := q
      have hi' : readUnpack 4 s1 = Except.ok (cl, s2) := hi
      obtain ⟨hd2, hp2, hb2, _⟩ := readUnpack_ok (by norm_num) hi'
      have hL1 : s1.data.length = s.data.length := by rw [hd1]
      have hL2 : s2.data.length = s1.data.length := by rw [hd2]
      cases hl : read_header_length cl s2 with
      | error e =>
        rcases read_header_length_err hl with he | he <;> subst he
        · refine Or.inr (Or.inl ?_)
          unfold read_header
          rw [hs]
          dsimp only
          rw [hi]
          dsimp only
          rw [hl]
        · refine Or.inr (Or.inr ?_)
          unfold read_header
          rw [hs]
          dsimp only
          rw [hi]
          dsimp only
          rw [hl]
      | ok r =>
        obtain ⟨sol, chl, ext, s3⟩ := r
        left
        have heq : read_header s = Except.ok
            ({ idn := idn,
               length := (if chl < 0 then
                   (StorageType.CONTAINER, unset_sign_bit chl sol)
                 else (StorageType.VALUE, chl)).2 -
                 ((SHORT_S : Int) + (INT_S : Int) +
                   (if ext then (LONG_LONG_S : Int) else 0)),
               storage_type := (if chl < 0 then
                   (StorageType.CONTAINER, unset_sign_bit chl sol)
                 else (StorageType.VALUE, chl)).1,
               extended := ext }, s3) := by
          unfold read_header
          rw [hs]
          dsimp only
          rw [hi]
          dsimp only
          rw [hl]
        refine ⟨_, s3, heq, ?_, ?_, ?_⟩ <;>
          rcases read_header_length_ok hl with h3 | ⟨h3d, h3p, h3b⟩
        · subst h3; rw [hd2, hd1]
        · rw [h3d, hd2, hd1]
        · subst h3; omega
        · omega
        · subst h3; omega
        · have hL3 : s2.data.length = s.data.length := by rw [hd2, hd1]
          omega

theorem read_header_ok_facts {s : ByteStream} {header : StorageHeader}
    {s1 : ByteStream} (hh : read_header s = Except.ok (header, s1)) :
    s1.data = s.data ∧ s.pos + 6 ≤ s1.pos ∧ s1.pos ≤ s.data.length := by
  rcases read_header_cases s with ⟨h0, s0, heq, hd, hp, hb⟩ | he | he
  · rw [hh] at heq
    cases heq
    exact ⟨hd, hp, hb⟩
  · rw [hh] at he
    cases he
  · rw [hh] at he
    cases he

theorem read_value_data (l : Int) (s : ByteStream) :
    (read_value l s).2.data = s.data := bytesRead_data s l

theorem read_value_pos_ge (l : Int) (s : ByteStream) :
    s.pos ≤ (read_value l s).2.pos := bytesRead_pos_ge s l

theorem read_value_pos_le (l : Int) (s : ByteStream)
    (h : s.pos ≤ s.data.length) : (read_value l s).2.pos ≤ s.data.length :=
  bytesRead_pos_le s l h

theorem read_loop_mono : ∀ (fuel : Nat) (L : Int) (start : Nat)
    (items : List Storage) (s : ByteStream) (its : List Storage) (s' : ByteStream),
    read_loop fuel L start items s = Except.ok (its, s') →
    s'.data = s.data ∧ s.pos ≤ s'.pos ∧
      (s.pos ≤ s.data.length → s'.pos ≤ s.data.length) := by
  intro fuel
  induction fuel with
  | zero =>
    intro L start items s its s' h
    simp only [read_loop] at h
    cases h
  | succ fuel ih =>
    intro L start items s its s' h
    simp only [read_loop] at h
    by_cases hg : ((s.pos : Int) - (start : Int)) < L
    · rw [if_pos hg] at h
      cases hh : read_header s with
      | error e => rw [hh] at h; cases h
      | ok p =>
        obtain ⟨header, s1⟩ := p
        rw [hh] at h
        dsimp only at h
        obtain ⟨hd1, hp1, hb1⟩ := read_header_ok_facts hh
        have e1 : s1.data.length = s.data.length := by rw [hd1]
        cases hst : header.storage_type with
        | CONTAINER =>
          rw [hst] at h
          dsimp only at h
          cases hc : read_loop fuel header.length s1.pos [] s1 with
          | error e => rw [hc] at h; cases h
          | ok q =>
            obtain ⟨childs, s2⟩ := q
            rw [hc] at h
            dsimp only at h
            obtain ⟨hd2, hp2, hb2⟩ := ih _ _ _ _ _ _ hc
            obtain ⟨hd3, hp3, hb3⟩ := ih _ _ _ _ _ _ h
            have e2 : s2.data.length = s1.data.length := by rw [hd2]
            refine ⟨by rw [hd3, hd2, hd1], by omega, fun hle => ?_⟩
            have p1 : s1.pos ≤ s1.data.length := by omega
            have p2 := hb2 p1
            have p3 : s2.pos ≤ s2.data.length := by omega
            have p4 := hb3 p3
            omega
        | VALUE =>
          rw [hst] at h
          dsimp only at h
          obtain ⟨hd3, hp3, hb3⟩ := ih _ _ _ _ _ _ h
          have hd2 := read_value_data header.length s1
          have hp2 := read_value_pos_ge header.length s1
          have e2 : (read_value header.length s1).2.data.length = s1.data.length := by
            rw [hd2]
          refine ⟨by rw [hd3, hd2, hd1], by omega, fun hle => ?_⟩
          have p1 : s1.pos ≤ s1.data.length := by omega
          have p2 := read_value_pos_le header.length s1 p1
          have p3 : (read_value header.length s1).2.pos ≤
              (read_value header.length s1).2.data.length := by omega
          have p4 := hb3 p3
          omega
    · rw [if_neg hg] at h
      cases h
      exact ⟨rfl, Nat.le_refl _, fun hle => hle⟩

theorem read_loop_fuel : ∀ (fuel : Nat) (L : Int) (start : Nat)
    (items : List Storage) (s : ByteStream),
    s.pos ≤ s.data.length → s.data.length + 1 ≤ fuel + s.pos →
    ¬ (read_loop fuel L start items s = Except.error ParseError.outOfFuel) := by
  intro fuel
  induction fuel with
  | zero =>
    intro L start items s hle hf
    exact absurd hf (by omega)
  | succ fuel ih =>
    intro L start items s hle hf h
    simp only [read_loop] at h
    by_cases hg : ((s.pos : Int) - (start : Int)) < L
    · rw [if_pos hg] at h
      rcases read_header_cases s with ⟨header, s1, hh, hd1, hp1, hb1⟩ | hh | hh
      · rw [hh] at h
        dsimp only at h
        have e1 : s1.data.length = s.data.length := by rw [hd1]
        cases hst : header.storage_type with
        | CONTAINER =>
          rw [hst] at h
          dsimp only at h
          cases hc : read_loop fuel header.length s1.pos [] s1 with
          | error e =>
            rw [hc] at h
            cases h
            exact ih _ _ _ s1 (by omega) (by omega) hc
          | ok q =>
            obtain ⟨childs, s2⟩ := q
            rw [hc] at h
            dsimp only at h
            obtain ⟨hd2, hp2, hb2⟩ := read_loop_mono fuel _ _ _ _ _ _ hc
            have e2 : s2.data.length = s1.data.length := by rw [hd2]
            have p1 : s1.pos ≤ s1.data.length := by omega
            have p2 := hb2 p1
            exact ih _ _ _ s2 (by omega) (by omega) h
        | VALUE =>
          rw [hst] at h
          dsimp only at h
          have hd2 := read_value_data header.length s1
          have hp2 := read_value_pos_ge header.length s1
          have p1 : s1.pos ≤ s1.data.length := by omega
          have p2 := read_value_pos_le header.length s1 p1
          have e2 : (read_value header.length s1).2.data.length = s1.data.length := by
            rw [hd2]
          exact ih _ _ _ _ (by omega) (by omega) h
      · rw [hh] at h
        cases h
      · rw [hh] at h
        cases h
    · rw [if_neg hg] at h
      cases h

theorem read_loop_consumed : ∀ (fuel : Nat) (L : Int) (start : Nat)
    (items : List Storage) (s : ByteStream) (its : List Storage) (s' : ByteStream),
    read_loop fuel L start items s = Except.ok (its, s') →
    L ≤ (s'.pos : Int) - (start : Int) := by
  intro fuel
  induction fuel with
  | zero =>
    intro L start items s its s' h
    simp only [read_loop] at h
    cases h
  | succ fuel ih =>
    intro L start items s its s' h
    simp only [read_loop] at h
    by_cases hg : ((s.pos : Int) - (start : Int)) < L
    · rw [if_pos hg] at h
      cases hh : read_header s with
      | error e => rw [hh] at h; cases h
      | ok p =>
        obtain ⟨header, s1⟩ := p
        rw [hh] at h
        dsimp only at h
        cases hst : header.storage_type with
        | CONTAINER =>
          rw [hst] at h
          dsimp only at h
          cases hc : read_loop fuel header.length s1.pos [] s1 with
          | error e => rw [hc] at h; cases h
          | ok q =>
            obtain ⟨childs, s2⟩ := q
            rw [hc] at h
            dsimp only at h
            exact ih _ _ _ _ _ _ h
        | VALUE =>
          rw [hst] at h
          dsimp only at h
          exact ih _ _ _ _ _ _ h
    · rw [if_neg hg] at h
      cases h
      omega

theorem ldiff_eq_xor_and (n m : Nat) : Nat.ldiff n m = n ^^^ (n &&& m) := by
  apply Nat.eq_of_testBit_eq
  intro i
  rw [Nat.testBit_ldiff, Nat.testBit_xor, Nat.testBit_and]
  cases n.testBit i <;> cases m.testBit i <;> rfl

theorem read_loop_step_value {fuel : Nat} {L : Int} {start : Nat}
    {items : List Storage} {s : ByteStream} {header : StorageHeader}
    {s1 : ByteStream}
    (hg : ((s.pos : Int) - (start : Int)) < L)
    (hh : read_header s = Except.ok (header, s1))
    (hst : header.storage_type = StorageType.VALUE) :
    read_loop (fuel + 1) L start items s =
      read_loop fuel L start
        (items ++ [Storage.value header (read_value header.length s1).1])
        (read_value header.length s1).2 := by
  simp only [read_loop]
  rw [if_pos hg, hh]
  dsimp only
  rw [hst]

theorem read_loop_step_container {fuel : Nat} {L : Int} {start : Nat}
    {items : List Storage} {s : ByteStream} {header : StorageHeader}
    {s1 : ByteStream} {childs : List Storage} {s2 : ByteStream}
    (hg : ((s.pos : Int) - (start : Int)) < L)
    (hh : read_header s = Except.ok (header, s1))
    (hst : header.storage_type = StorageType.CONTAINER)
    (hc : read_loop fuel header.length s1.pos [] s1 = Except.ok (childs, s2)) :
    read_loop (fuel + 1) L start items s =
      read_loop fuel L start (items ++ [Storage.container header childs]) s2 := by
  simp only [read_loop]
  rw [if_pos hg, hh]
  dsimp only
  rw [hst]
  dsimp only
  rw [hc]

theorem read_loop_step_error {fuel : Nat} {L : Int} {start : Nat}
    {items : List Storage} {s : ByteStream} {e : ParseError}
    (hg : ((s.pos : Int) - (start : Int)) < L)
    (hh : read_header s = Except.error e) :
    read_loop (fuel + 1) L start items s = Except.error e := by
  simp only [read_loop]
  rw [if_pos hg, hh]

theorem read_loop_stop {fuel : Nat} {L : Int} {start : Nat}
    {items : List Storage} {s : ByteStream}
    (hg : ¬ ((s.pos : Int) - (start : Int)) < L) :
    read_loop (fuel + 1) L start items s = Except.ok (items, s) := by
  simp only [read_loop]
  rw [if_neg hg]

/-- Claim C1: for every container header the decoder recovers the payload
magnitude by clearing the sign bit within the bit width of the length
field actually read: `unset_sign_bit` equals bitwise AND with the
(width-1)-bit mask for the 32-bit and the 64-bit field, and any 32-bit raw
length with the sign bit set decodes to a `CONTAINER` header whose
magnitude (before the header-size adjustment of 6) is
`Int.land raw (2^31 - 1)`, not the arithmetic negation.  The witness
instantiates the raw value `-2^31` (byte pattern `00 00 00 80`). -/
theorem C1_container_magnitude_clears_sign_bit :
    ((∀ number : Int, unset_sign_bit number 4 = Int.land number (2 ^ 31 - 1)) ∧
      (∀ number : Int, unset_sign_bit number 8 = Int.land number (2 ^ 63 - 1))) ∧
    ∀ (b0 b1 n : Nat) (rest : List Nat), 2 ^ 31 ≤ n → n < 2 ^ 32 →
      read_header { data := b0 :: b1 :: (natToBytes 4 n ++ rest), pos := 0 } =
        Except.ok ({ idn := toSigned 2 (b0 + 256 * b1),
                     length := Int.land (toSigned 4 n) (2 ^ 31 - 1) - 6,
                     storage_type := StorageType.CONTAINER, extended := false },
          { data := b0 :: b1 :: (natToBytes 4 n ++ rest), pos := 6 }) := by
  refine ⟨⟨unset_sign_bit_four, unset_sign_bit_eight⟩, ?_⟩
  intro b0 b1 n rest hge hlt
  have h := read_header_cont32_eval
    { data := b0 :: b1 :: (natToBytes 4 n ++ rest), pos := 0 } b0 b1 n rest rfl hge hlt
  simpa using h

/-- Witness for C1 at the boundary raw value `-2^31`
(unsigned bit pattern `2^31`). -/
theorem C1_container_magnitude_clears_sign_bit_witness :
    2 ^ 31 ≤ (2 ^ 31 : Nat) ∧ ((2 ^ 31 : Nat) < 2 ^ 32) ∧
    read_header { data := 1 :: 0 :: (natToBytes 4 (2 ^ 31) ++ []), pos := 0 } =
      Except.ok ({ idn := toSigned 2 (1 + 256 * 0),
                   length := Int.land (toSigned 4 (2 ^ 31)) (2 ^ 31 - 1) - 6,
                   storage_type := StorageType.CONTAINER, extended := false },
        { data := 1 :: 0 :: (natToBytes 4 (2 ^ 31) ++ []), pos := 6 }) :=
  ⟨Nat.le_refl _, by norm_num,
    C1_container_magnitude_clears_sign_bit.2 1 0 (2 ^ 31) [] (Nat.le_refl _)
      (by norm_num)⟩

/-- Claim C2: a zero 32-bit length makes the decoder read a second signed 64-bit
length, mark the header extended, and use a total header size of 14 bytes
(the cursor ends at position 14); a 64-bit value with the sign bit set
yields a `CONTAINER` header with `extended = true` and payload length
`(value with sign bit cleared) - 14`. -/
theorem C2_extended_header (b0 b1 m : Nat) (rest : List Nat)
    (hge : 2 ^ 63 ≤ m) (hlt : m < 2 ^ 64) :
    read_header { data := b0 :: b1 :: (natToBytes 4 0 ++ (natToBytes 8 m ++ rest)),
                  pos := 0 } =
      Except.ok ({ idn := toSigned 2 (b0 + 256 * b1),
                   length := Int.land (toSigned 8 m) (2 ^ 63 - 1) - 14,
                   storage_type := StorageType.CONTAINER, extended := true },
        { data := b0 :: b1 :: (natToBytes 4 0 ++ (natToBytes 8 m ++ rest)),
          pos := 14 }) := by
  have h := read_header_ext_eval
    { data := b0 :: b1 :: (natToBytes 4 0 ++ (natToBytes 8 m ++ rest)), pos := 0 }
    b0 b1 m rest rfl hge hlt
  simpa using h

/-- Witness for C2 with the 64-bit pattern `2^63 + 20`. -/
theorem C2_extended_header_witness :
    2 ^ 63 ≤ (2 ^ 63 + 20 : Nat) ∧ ((2 ^ 63 + 20 : Nat) < 2 ^ 64) ∧
    read_header { data := 1 :: 0 :: (natToBytes 4 0 ++ (natToBytes 8 (2 ^ 63 + 20) ++ [])),
                  pos := 0 } =
      Except.ok ({ idn := toSigned 2 (1 + 256 * 0),
                   length := Int.land (toSigned 8 (2 ^ 63 + 20)) (2 ^ 63 - 1) - 14,
                   storage_type := StorageType.CONTAINER, extended := true },
        { data := 1 :: 0 :: (natToBytes 4 0 ++ (natToBytes 8 (2 ^ 63 + 20) ++ [])),
          pos := 14 }) :=
  ⟨by norm_num, by norm_num,
    C2_extended_header 1 0 (2 ^ 63 + 20) [] (by norm_num) (by norm_num)⟩

/-- Claim C7: a zero 32-bit length followed by a zero 64-bit length always makes
decoding fail with the assertion error on the extended length
(`MalformedHeader` in the spec's taxonomy), for any identifier bytes and
any trailing bytes. -/
theorem C7_double_zero_length_fails (b0 b1 : Nat) (rest : List Nat) :
    parse (b0 :: b1 :: (natToBytes 4 0 ++ (natToBytes 8 0 ++ rest))) =
      Except.error ParseError.assertExtZero := by
  have hh := read_header_extzero_eval
    { data := b0 :: b1 :: (natToBytes 4 0 ++ (natToBytes 8 0 ++ rest)), pos := 0 }
    b0 b1 rest rfl
  have hlen : (b0 :: b1 :: (natToBytes 4 0 ++ (natToBytes 8 0 ++ rest))).length =
      14 + rest.length := by
    simp [natToBytes_length]
    omega
  unfold parse read_nodes
  dsimp only
  rw [Nat.sub_zero, read_loop_step_error (by dsimp only; rw [hlen]; omega) hh]

/-- Claim C4, counterexample: a value header whose magnitude 3 is smaller than
the 6-byte header size decodes without any error, yielding payload length
`-3`; the claim that decoding fails with `MalformedHeader` is false. -/
theorem C4_counterexample :
    read_header { data := [1, 0, 3, 0, 0, 0], pos := 0 } =
      Except.ok ({ idn := 1, length := -3, storage_type := StorageType.VALUE,
                   extended := false }, { data := [1, 0, 3, 0, 0, 0], pos := 6 }) := by
  rfl

/-- Claim C4, amended: for every 32-bit value-header magnitude smaller than the
header size 6, header decoding succeeds (no `MalformedHeader`) and hands
the negative payload length `n - 6` to the tree builder. -/
theorem C4_negative_payload_length_returned (b0 b1 n : Nat) (rest : List Nat)
    (h1 : 0 < n) (h2 : n < 6) :
    read_header { data := b0 :: b1 :: (natToBytes 4 n ++ rest), pos := 0 } =
      Except.ok ({ idn := toSigned 2 (b0 + 256 * b1), length := (n : Int) - 6,
                   storage_type := StorageType.VALUE, extended := false },
        { data := b0 :: b1 :: (natToBytes 4 n ++ rest), pos := 6 }) ∧
      ((n : Int) - 6 < 0) := by
  refine ⟨?_, by omega⟩
  have h := read_header_value_eval
    { data := b0 :: b1 :: (natToBytes 4 n ++ rest), pos := 0 } b0 b1 n rest rfl h1
    (by omega)
  simpa using h

/-- Witness for the amended C4 at magnitude 3. -/
theorem C4_negative_payload_length_returned_witness :
    0 < 3 ∧ 3 < 6 ∧
    (read_header { data := 1 :: 0 :: (natToBytes 4 3 ++ []), pos := 0 } =
      Except.ok ({ idn := toSigned 2 (1 + 256 * 0), length := (3 : Int) - 6,
                   storage_type := StorageType.VALUE, extended := false },
        { data := 1 :: 0 :: (natToBytes 4 3 ++ []), pos := 6 }) ∧
      ((3 : Int) - 6 < 0)) :=
  ⟨by norm_num, by norm_num,
    C4_negative_payload_length_returned 1 0 3 [] (by norm_num) (by norm_num)⟩

/-- Claim C8: decoding is deterministic and idempotent: two successful `parse`
passes over identical bytes yield equal forests. -/
theorem C8_parse_deterministic (data : List Nat) (r1 r2 : List Storage)
    (h1 : parse data = Except.ok r1) (h2 : parse data = Except.ok r2) : r1 = r2 := by
  rw [h1] at h2
  cases h2
  rfl

/-- Witness for C8 on the scenario-A bytes. -/
theorem C8_parse_deterministic_witness :
    parse [1, 0, 8, 0, 0, 0, 65, 66] =
      Except.ok [Storage.value
        { idn := 1, length := 2, storage_type := StorageType.VALUE,
          extended := false } [65, 66]] ∧
    ([Storage.value
        { idn := 1, length := 2, storage_type := StorageType.VALUE,
          extended := false } [65, 66]] : List Storage) =
      [Storage.value
        { idn := 1, length := 2, storage_type := StorageType.VALUE,
          extended := false } [65, 66]] :=
  ⟨rfl, C8_parse_deterministic [1, 0, 8, 0, 0, 0, 65, 66] _ _ rfl rfl⟩

/-- Claim C9: when a value header's payload length exceeds the bytes remaining,
the loop's payload read raises no error: the iteration appends a value
node whose bytes are exactly the remaining bytes of the stream (strictly
fewer than `header.length`) and continues. -/
theorem C9_value_read_truncates_silently (fuel : Nat) (L : Int) (start : Nat)
    (items : List Storage) (s : ByteStream) (header : StorageHeader)
    (s1 : ByteStream)
    (hh : read_header s = Except.ok (header, s1))
    (hst : header.storage_type = StorageType.VALUE)
    (hg : ((s.pos : Int) - (start : Int)) < L)
    (hlen : ((s1.data.length : Int) - (s1.pos : Int)) < header.length)
    (hpos : s1.pos ≤ s1.data.length) :
    read_loop (fuel + 1) L start items s =
      read_loop fuel L start (items ++ [Storage.value header (s1.data.drop s1.pos)])
        { s1 with pos := s1.data.length } ∧
      ((s1.data.drop s1.pos).length : Int) < header.length := by
  have h0 : ¬ (header.length < 0) := by omega
  have hrv : read_value header.length s1 =
      (s1.data.drop s1.pos, { s1 with pos := s1.data.length }) := by
    unfold read_value bytesRead
    rw [if_neg h0]
    have hk : (s1.data.drop s1.pos).length ≤ header.length.toNat := by
      simp only [List.length_drop]
      omega
    rw [List.take_of_length_le hk]
    dsimp only
    have hp : s1.pos + (s1.data.drop s1.pos).length = s1.data.length := by
      simp only [List.length_drop]
      omega
    rw [hp]
  rw [read_loop_step_value hg hh hst, hrv]
  refine ⟨rfl, ?_⟩
  simp only [List.length_drop]
  omega

/-- Witness for C9: budget 8, value header claiming 10 payload bytes with
only 2 remaining. -/
theorem C9_value_read_truncates_silently_witness :
    read_header { data := [1, 0, 16, 0, 0, 0, 9, 9], pos := 0 } =
      Except.ok ({ idn := 1, length := 10, storage_type := StorageType.VALUE,
                   extended := false }, { data := [1, 0, 16, 0, 0, 0, 9, 9], pos := 6 }) ∧
    (read_loop (0 + 1) 8 0 [] { data := [1, 0, 16, 0, 0, 0, 9, 9], pos := 0 } =
      read_loop 0 8 0
        ([] ++ [Storage.value
          { idn := 1, length := 10, storage_type := StorageType.VALUE,
            extended := false }
          (([1, 0, 16, 0, 0, 0, 9, 9] : List Nat).drop 6)])
        { data := [1, 0, 16, 0, 0, 0, 9, 9], pos := ([1, 0, 16, 0, 0, 0, 9, 9] : List Nat).length } ∧
      (((([1, 0, 16, 0, 0, 0, 9, 9] : List Nat).drop 6).length : Int) < 10)) :=
  ⟨rfl, C9_value_read_truncates_silently 0 8 0 []
    { data := [1, 0, 16, 0, 0, 0, 9, 9], pos := 0 }
    { idn := 1, length := 10, storage_type := StorageType.VALUE, extended := false }
    { data := [1, 0, 16, 0, 0, 0, 9, 9], pos := 6 }
    rfl rfl (by decide) (by decide) (by decide)⟩

/-- Claim C10: a negative length makes the payload read return every remaining
byte (Python's `read` treats a negative size as read-to-end), and makes
the sibling loop return an empty children list without consuming
anything. -/
theorem C10_negative_length_behaviour (s : ByteStream) (L : Int)
    (hL : L < 0) (hpos : s.pos ≤ s.data.length) :
    read_value L s = (s.data.drop s.pos, { s with pos := s.data.length }) ∧
    read_nodes L s = Except.ok ([], s) := by
  constructor
  · unfold read_value bytesRead
    rw [if_pos hL]
    have hp : s.pos + (s.data.drop s.pos).length = s.data.length := by
      simp only [List.length_drop]
      omega
    rw [hp]
  · unfold read_nodes
    obtain ⟨f, hf⟩ : ∃ f, s.data.length + 1 - s.pos = f + 1 :=
      ⟨s.data.length - s.pos, by omega⟩
    rw [hf, read_loop_stop (by omega)]

/-- Witness for C10 at length `-3`, position 2 of a 5-byte buffer. -/
theorem C10_negative_length_behaviour_witness :
    read_value (-3) { data := [1, 2, 3, 4, 5], pos := 2 } =
      (([1, 2, 3, 4, 5] : List Nat).drop 2,
        { data := [1, 2, 3, 4, 5], pos := ([1, 2, 3, 4, 5] : List Nat).length }) ∧
    read_nodes (-3) { data := [1, 2, 3, 4, 5], pos := 2 } =
      Except.ok ([], { data := [1, 2, 3, 4, 5], pos := 2 }) :=
  C10_negative_length_behaviour { data := [1, 2, 3, 4, 5], pos := 2 } (-3)
    (by decide) (by decide)

/-- Claim C3, counterexample: with budget 8 the loop consumes 16 bytes (a value
chunk overrunning its parent) and stops successfully with
`consumed = 16 ≠ 8` and no error, refuting both the exact-budget
postcondition and the claimed `TruncatedStream`/`ChunkOverrun` failure. -/
theorem C3_counterexample :
    read_nodes 8 { data := [1, 0, 16, 0, 0, 0, 9, 9, 9, 9, 9, 9, 9, 9, 9, 9], pos := 0 } =
      Except.ok ([Storage.value
          { idn := 1, length := 10, storage_type := StorageType.VALUE,
            extended := false } [9, 9, 9, 9, 9, 9, 9, 9, 9, 9]],
        { data := [1, 0, 16, 0, 0, 0, 9, 9, 9, 9, 9, 9, 9, 9, 9, 9], pos := 16 }) ∧
      ¬ ((16 : Int) - 0 = 8) :=
  ⟨by rfl, by decide⟩

/-- Claim C3, amended: the sibling loop always terminates (the fuel
`data.length + 1 - pos` suffices, each iteration consuming at least a
6-byte header); a successful return consumes at least the budget, possibly
strictly more, with the final position still inside the buffer (no
out-of-bounds read); and when the declared budget exceeds the bytes
remaining the loop returns a decode error (the `struct.error` of a
truncated fixed-width read, or the extended-length assertion), never an
out-of-fuel loop. -/
theorem C3_loop_termination_and_budget (L : Int) (s : ByteStream)
    (hpos : s.pos ≤ s.data.length) :
    read_nodes L s ≠ Except.error ParseError.outOfFuel ∧
    (∀ its s', read_nodes L s = Except.ok (its, s') →
      L ≤ (s'.pos : Int) - (s.pos : Int) ∧ s'.pos ≤ s.data.length) ∧
    (((s.data.length : Int) - (s.pos : Int)) < L →
      ∃ e, read_nodes L s = Except.error e ∧ e ≠ ParseError.outOfFuel) := by
  have hfuel := read_loop_fuel (s.data.length + 1 - s.pos) L s.pos [] s hpos
    (by omega)
  refine ⟨hfuel, ?_, ?_⟩
  · intro its s' h
    have h' : read_loop (s.data.length + 1 - s.pos) L s.pos [] s =
        Except.ok (its, s') := h
    have hcons := read_loop_consumed _ _ _ _ _ _ _ h'
    obtain ⟨hd, hp, hb⟩ := read_loop_mono _ _ _ _ _ _ _ h'
    exact ⟨hcons, hb hpos⟩
  · intro hover
    cases hres : read_nodes L s with
    | ok p =>
      obtain ⟨its, s'⟩ := p
      exfalso
      have hres' : read_loop (s.data.length + 1 - s.pos) L s.pos [] s =
          Except.ok (its, s') := hres
      have hcons := read_loop_consumed _ _ _ _ _ _ _ hres'
      obtain ⟨hd, hp, hb⟩ := read_loop_mono _ _ _ _ _ _ _ hres'
      have hb2 := hb hpos
      omega
    | error e =>
      refine ⟨e, rfl, ?_⟩
      rintro rfl
      exact hfuel hres

/-- Witness for the amended C3 on the overrun stream of the
counterexample. -/
theorem C3_loop_termination_and_budget_witness :
    read_nodes 8 { data := [1, 0, 16, 0, 0, 0, 9, 9, 9, 9, 9, 9, 9, 9, 9, 9], pos := 0 } ≠
      Except.error ParseError.outOfFuel ∧
    (∀ its s', read_nodes 8 { data := [1, 0, 16, 0, 0, 0, 9, 9, 9, 9, 9, 9, 9, 9, 9, 9], pos := 0 } =
        Except.ok (its, s') →
      8 ≤ (s'.pos : Int) - ((0 : Nat) : Int) ∧
        s'.pos ≤ ([1, 0, 16, 0, 0, 0, 9, 9, 9, 9, 9, 9, 9, 9, 9, 9] : List Nat).length) ∧
    (((([1, 0, 16, 0, 0, 0, 9, 9, 9, 9, 9, 9, 9, 9, 9, 9] : List Nat).length : Int) -
        ((0 : Nat) : Int)) < 8 →
      ∃ e, read_nodes 8 { data := [1, 0, 16, 0, 0, 0, 9, 9, 9, 9, 9, 9, 9, 9, 9, 9], pos := 0 } =
        Except.error e ∧ e ≠ ParseError.outOfFuel) :=
  C3_loop_termination_and_budget 8
    { data := [1, 0, 16, 0, 0, 0, 9, 9, 9, 9, 9, 9, 9, 9, 9, 9], pos := 0 } (by decide)

/-- Claim C5: one value header with payload length `L` followed by exactly `L`
payload bytes decodes to a single value node carrying that payload, with
`header.length = L` (the 32-bit length field stores `L + 6`).  The witness
instantiates scenario A: id `0x0001`, length field 8, payload "AB". -/
theorem C5_single_value_roundtrip (b0 b1 : Nat) (payload : List Nat)
    (hlt : payload.length + 6 < 2 ^ 31) :
    parse (b0 :: b1 :: (natToBytes 4 (payload.length + 6) ++ payload)) =
      Except.ok [Storage.value
        { idn := toSigned 2 (b0 + 256 * b1), length := (payload.length : Int),
          storage_type := StorageType.VALUE, extended := false } payload] := by
  have hlen : (b0 :: b1 :: (natToBytes 4 (payload.length + 6) ++ payload)).length
      = payload.length + 6 := by
    simp [natToBytes_length]
    omega
  have hcast : ((payload.length + 6 : Nat) : Int) - 6 = (payload.length : Int) := by
    push_cast
    ring
  have hh0 := read_header_value_eval
    { data := b0 :: b1 :: (natToBytes 4 (payload.length + 6) ++ payload), pos := 0 }
    b0 b1 (payload.length + 6) payload rfl (by omega) (by omega)
  rw [hcast] at hh0
  have hh : read_header
      { data := b0 :: b1 :: (natToBytes 4 (payload.length + 6) ++ payload), pos := 0 } =
      Except.ok ({ idn := toSigned 2 (b0 + 256 * b1),
                   length := (payload.length : Int),
                   storage_type := StorageType.VALUE, extended := false },
        { data := b0 :: b1 :: (natToBytes 4 (payload.length + 6) ++ payload),
          pos := 6 }) := by
    simpa using hh0
  have hdrop : List.drop 6 (b0 :: b1 :: (natToBytes 4 (payload.length + 6) ++ payload))
      = payload := by
    rw [show (6 : Nat) = 2 + 4 from rfl, ← List.drop_drop]
    show List.drop 4 (natToBytes 4 (payload.length + 6) ++ payload) = payload
    exact List.drop_left' (natToBytes_length 4 _)
  have hrv : read_value ((payload.length : Nat) : Int)
      { data := b0 :: b1 :: (natToBytes 4 (payload.length + 6) ++ payload), pos := 6 } =
      (payload, { data := b0 :: b1 :: (natToBytes 4 (payload.length + 6) ++ payload),
                  pos := 6 + payload.length }) := by
    unfold read_value bytesRead
    rw [if_neg (by omega)]
    dsimp only
    rw [Int.toNat_natCast, hdrop, List.take_length]
  have hfuel : (b0 :: b1 :: (natToBytes 4 (payload.length + 6) ++ payload)).length + 1 - 0
      = ((payload.length + 5) + 1) + 1 := by
    rw [hlen]
    omega
  unfold parse read_nodes
  dsimp only
  rw [hfuel]
  rw [read_loop_step_value (by dsimp only; rw [hlen]; push_cast; omega) hh rfl]
  dsimp only
  rw [hrv]
  dsimp only
  rw [read_loop_stop (by dsimp only; rw [hlen]; push_cast; omega)]
  rfl

/-- Witness for C5: scenario A, bytes `01 00 08 00 00 00 41 42`. -/
theorem C5_single_value_roundtrip_witness :
    ([65, 66] : List Nat).length + 6 < 2 ^ 31 ∧
    parse (1 :: 0 :: (natToBytes 4 (([65, 66] : List Nat).length + 6) ++ [65, 66])) =
      Except.ok [Storage.value
        { idn := toSigned 2 (1 + 256 * 0),
          length := ((([65, 66] : List Nat).length : Nat) : Int),
          storage_type := StorageType.VALUE, extended := false } [65, 66]] :=
  ⟨by norm_num, C5_single_value_roundtrip 1 0 [65, 66] (by norm_num)⟩

theorem read_loop_step_container_err {fuel : Nat} {L : Int} {start : Nat}
    {items : List Storage} {s : ByteStream} {header : StorageHeader}
    {s1 : ByteStream} {e : ParseError}
    (hg : ((s.pos : Int) - (start : Int)) < L)
    (hh : read_header s = Except.ok (header, s1))
    (hst : header.storage_type = StorageType.CONTAINER)
    (hc : read_loop fuel header.length s1.pos [] s1 = Except.error e) :
    read_loop (fuel + 1) L start items s = Except.error e := by
  simp only [read_loop]
  rw [if_pos hg, hh]
  dsimp only
  rw [hst]
  dsimp only
  rw [hc]

theorem read_nodes_eq_loop (L : Int) (s : ByteStream) :
    read_nodes L s = read_loop (s.data.length + 1 - s.pos) L s.pos [] s := rfl

theorem parse_eq_of_read_nodes {data : List Nat} {r : Except ParseError (List Storage)}
    (h : match read_nodes ((data.length : Nat) : Int) { data := data, pos := 0 } with
      | Except.ok (items, _) => r = Except.ok items
      | Except.error e => r = Except.error e) :
    parse data = r := by
  unfold parse
  cases hres : read_nodes ((data.length : Nat) : Int) { data := data, pos := 0 } with
  | ok p =>
    rw [hres] at h
    obtain ⟨items, s⟩ := p
    rw [h]
  | error e =>
    rw [hres] at h
    rw [h]

/-- Claim C6, counterexample: the spec's scenario-B byte string stores the
container length as the arithmetic negation `-(6+8) = -14`
(bytes `F2 FF FF FF`); the sign-bit-clearing decoder turns that into the
huge magnitude `2^31 - 14`, the child budget overruns the buffer, and the
parse fails with the truncated-read `struct.error` instead of producing
the claimed container node. -/
theorem C6_counterexample :
    parse [2, 0, 242, 255, 255, 255, 1, 0, 8, 0, 0, 0, 65, 66] =
      Except.error ParseError.structError := by
  have hd : ([2, 0, 242, 255, 255, 255, 1, 0, 8, 0, 0, 0, 65, 66] : List Nat).drop 0 =
      2 :: 0 :: (natToBytes 4 4294967282 ++ [1, 0, 8, 0, 0, 0, 65, 66]) := by rfl
  have h := read_header_cont32_eval
    { data := [2, 0, 242, 255, 255, 255, 1, 0, 8, 0, 0, 0, 65, 66], pos := 0 }
    2 0 4294967282 [1, 0, 8, 0, 0, 0, 65, 66] hd (by norm_num) (by norm_num)
  have ht : toSigned 4 4294967282 = Int.negSucc 13 := by
    rw [toSigned_of_ge (by norm_num)]
    norm_num [Int.negSucc_eq]
  have hland : Int.land (toSigned 4 4294967282) (2 ^ 31 - 1) = 2147483634 := by
    rw [ht, show ((2 : Int) ^ 31 - 1) = ((2 ^ 31 - 1 : Nat) : Int) from by norm_num,
      int_land_negSucc_ofNat, ldiff_eq_xor_and]
    decide
  rw [show toSigned 2 (2 + 256 * 0) = 2 from by decide, hland,
    show (2147483634 : Int) - 6 = 2147483628 from by decide] at h
  have hh1 : read_header ({ data := [2, 0, 242, 255, 255, 255, 1, 0, 8, 0, 0, 0, 65, 66], pos := 0 } : ByteStream) =
      Except.ok ({ idn := 2, length := 2147483628,
                   storage_type := StorageType.CONTAINER, extended := false },
        { data := [2, 0, 242, 255, 255, 255, 1, 0, 8, 0, 0, 0, 65, 66], pos := 6 }) := by
    simpa using h
  have hv2 : read_header ({ data := [2, 0, 242, 255, 255, 255, 1, 0, 8, 0, 0, 0, 65, 66], pos := 6 } : ByteStream) =
      Except.ok ({ idn := 1, length := 2, storage_type := StorageType.VALUE,
                   extended := false },
        { data := [2, 0, 242, 255, 255, 255, 1, 0, 8, 0, 0, 0, 65, 66], pos := 12 }) := by
    rfl
  have hrv2 : read_value 2 ({ data := [2, 0, 242, 255, 255, 255, 1, 0, 8, 0, 0, 0, 65, 66], pos := 12 } : ByteStream) =
      ([65, 66], { data := [2, 0, 242, 255, 255, 255, 1, 0, 8, 0, 0, 0, 65, 66], pos := 14 }) := by rfl
  have herr : read_header ({ data := [2, 0, 242, 255, 255, 255, 1, 0, 8, 0, 0, 0, 65, 66], pos := 14 } : ByteStream) = Except.error ParseError.structError := by
    rfl
  have hinner : read_loop 14 2147483628 6 []
      { data := [2, 0, 242, 255, 255, 255, 1, 0, 8, 0, 0, 0, 65, 66], pos := 6 } =
      Except.error ParseError.structError := by
    rw [show (14 : Nat) = 13 + 1 from rfl, read_loop_step_value (by decide) hv2 rfl]
    dsimp only
    rw [hrv2]
    dsimp only
    rw [show (13 : Nat) = 12 + 1 from rfl, read_loop_step_error (by decide) herr]
  have houter : read_nodes
      ((([2, 0, 242, 255, 255, 255, 1, 0, 8, 0, 0, 0, 65, 66] : List Nat).length : Nat) : Int)
      { data := [2, 0, 242, 255, 255, 255, 1, 0, 8, 0, 0, 0, 65, 66], pos := 0 } =
      Except.error ParseError.structError := by
    rw [read_nodes_eq_loop]
    show read_loop (14 + 1) _ 0 [] _ = _
    rw [read_loop_step_container_err (by decide) hh1 rfl hinner]
  apply parse_eq_of_read_nodes
  rw [houter]

/-- Claim C6, amended: with the container length field carrying the sign bit as a
type tag on the magnitude `6 + 8` (bit pattern `0x8000000E`, bytes
`0E 00 00 80`, signed value `-(2^31 - 14)`), the bytes of scenario B
decode to one container node with identifier 2 and payload length 8 whose
single child is scenario A's value node. -/
theorem C6_container_wraps_value :
    parse [2, 0, 14, 0, 0, 128, 1, 0, 8, 0, 0, 0, 65, 66] =
      Except.ok [Storage.container
        { idn := 2, length := 8, storage_type := StorageType.CONTAINER,
          extended := false }
        [Storage.value
          { idn := 1, length := 2, storage_type := StorageType.VALUE,
            extended := false } [65, 66]]] := by
  have hd : ([2, 0, 14, 0, 0, 128, 1, 0, 8, 0, 0, 0, 65, 66] : List Nat).drop 0 =
      2 :: 0 :: (natToBytes 4 2147483662 ++ [1, 0, 8, 0, 0, 0, 65, 66]) := by rfl
  have h := read_header_cont32_eval
    { data := [2, 0, 14, 0, 0, 128, 1, 0, 8, 0, 0, 0, 65, 66], pos := 0 }
    2 0 2147483662 [1, 0, 8, 0, 0, 0, 65, 66] hd (by norm_num) (by norm_num)
  have ht : toSigned 4 2147483662 = Int.negSucc 2147483633 := by
    rw [toSigned_of_ge (by norm_num)]
    norm_num [Int.negSucc_eq]
  have hland : Int.land (toSigned 4 2147483662) (2 ^ 31 - 1) = 14 := by
    rw [ht, show ((2 : Int) ^ 31 - 1) = ((2 ^ 31 - 1 : Nat) : Int) from by norm_num,
      int_land_negSucc_ofNat, ldiff_eq_xor_and]
    decide
  rw [show toSigned 2 (2 + 256 * 0) = 2 from by decide, hland,
    show (14 : Int) - 6 = 8 from by decide] at h
  have hh1 : read_header ({ data := [2, 0, 14, 0, 0, 128, 1, 0, 8, 0, 0, 0, 65, 66], pos := 0 } : ByteStream) =
      Except.ok ({ idn := 2, length := 8,
                   storage_type := StorageType.CONTAINER, extended := false },
        { data := [2, 0, 14, 0, 0, 128, 1, 0, 8, 0, 0, 0, 65, 66], pos := 6 }) := by
    simpa using h
  have hv2 : read_header ({ data := [2, 0, 14, 0, 0, 128, 1, 0, 8, 0, 0, 0, 65, 66], pos := 6 } : ByteStream) =
      Except.ok ({ idn := 1, length := 2, storage_type := StorageType.VALUE,
                   extended := false },
        { data := [2, 0, 14, 0, 0, 128, 1, 0, 8, 0, 0, 0, 65, 66], pos := 12 }) := by
    rfl
  have hrv2 : read_value 2 ({ data := [2, 0, 14, 0, 0, 128, 1, 0, 8, 0, 0, 0, 65, 66], pos := 12 } : ByteStream) =
      ([65, 66], { data := [2, 0, 14, 0, 0, 128, 1, 0, 8, 0, 0, 0, 65, 66], pos := 14 }) := by rfl
  have hinner : read_loop 14 (8 : Int) 6 []
      { data := [2, 0, 14, 0, 0, 128, 1, 0, 8, 0, 0, 0, 65, 66], pos := 6 } =
      Except.ok ([Storage.value
          { idn := 1, length := 2, storage_type := StorageType.VALUE,
            extended := false } [65, 66]],
        { data := [2, 0, 14, 0, 0, 128, 1, 0, 8, 0, 0, 0, 65, 66], pos := 14 }) := by
    rw [show (14 : Nat) = 13 + 1 from rfl, read_loop_step_value (by decide) hv2 rfl]
    dsimp only
    rw [hrv2]
    dsimp only
    rw [show (13 : Nat) = 12 + 1 from rfl, read_loop_stop (by decide)]
    rfl
  have houter : read_nodes
      ((([2, 0, 14, 0, 0, 128, 1, 0, 8, 0, 0, 0, 65, 66] : List Nat).length : Nat) : Int)
      { data := [2, 0, 14, 0, 0, 128, 1, 0, 8, 0, 0, 0, 65, 66], pos := 0 } =
      Except.ok ([Storage.container
          { idn := 2, length := 8, storage_type := StorageType.CONTAINER,
            extended := false }
          [Storage.value
            { idn := 1, length := 2, storage_type := StorageType.VALUE,
              extended := false } [65, 66]]],
        { data := [2, 0, 14, 0, 0, 128, 1, 0, 8, 0, 0, 0, 65, 66], pos := 14 }) := by
    rw [read_nodes_eq_loop]
    show read_loop (14 + 1) _ 0 [] _ = _
    rw [read_loop_step_container (by decide) hh1 rfl hinner]
    rw [show (14 : Nat) = 13 + 1 from rfl, read_loop_stop (by decide)]
    rfl
  apply parse_eq_of_read_nodes
  rw [houter]
